import Mathlib

/-!
Verification of the mcp-demo tool-dispatch façade.

The repository registers four tools (add_numbers, current_time_ist,
read_project_file, list_project_directory) on an MCP server object and wires
the server into an Express endpoint POST /mcp.  Two source variants exist:
src/src/server.ts (namespace ServerTs below) and src/unnamed/part_000
(namespace Part000 below).  This file gives a shallow embedding of the
handlers, of the path arithmetic (Node path.resolve / path.join, POSIX), of
the relevant pieces of Date (ECMA-262 toISOString) and of the per-request
HTTP wrapper, and proves the specification claims about them.

Modelling conventions:
  - JS numbers are modelled as exact rationals (the handlers do a single
    addition; IEEE-754 rounding is not modelled).
  - The filesystem is a state passed explicitly: readFile / readdir are
    fallible functions returning either a value or an error message,
    standing for the resolved or rejected promise of fs/promises.
  - Instants are epoch milliseconds (Nat: the server runs after 1970).
  - A handler returning the MCP result object is a total Lean function:
    the success envelope carries the text block and the structured payload.
-/

namespace McpDemo

/-- JSON values, the shape of every structured tool payload. -/
inductive Json where
  | str : String → Json
  | num : Rat → Json
  | arr : List Json → Json
  | obj : List (String × Json) → Json

/-- One JSON string escape, as produced by JSON.stringify. -/
def escChar (c : Char) : List Char :=
  if c = '"' then ['\\', '"']
  else if c = '\\' then ['\\', '\\']
  else if c = '\n' then ['\\', 'n']
  else if c = '\t' then ['\\', 't']
  else if c = '\r' then ['\\', 'r']
  else if c.toNat = 8 then ['\\', 'b']
  else if c.toNat = 12 then ['\\', 'f']
  else if c.toNat < 32 then
    ['\\', 'u', '0', '0',
     (if c.toNat / 16 < 10 then Char.ofNat (48 + c.toNat / 16) else Char.ofNat (87 + c.toNat / 16)),
     (if c.toNat % 16 < 10 then Char.ofNat (48 + c.toNat % 16) else Char.ofNat (87 + c.toNat % 16))]
  else [c]

/-- A JSON string literal: quoted and escaped, as JSON.stringify renders strings. -/
def escString (s : String) : String :=
  "\"" ++ String.mk (s.data.map escChar).flatten ++ "\""

/-- Rendering of a JS number.  The handlers only ever serialize the exact sum
of the two inputs; the digit-level float formatting of JS is abstracted by
this deterministic rendering of the rational value. -/
def ratToString (q : Rat) : String :=
  if q.den = 1 then toString q.num else toString q.num ++ "/" ++ toString q.den

mutual

/-- JSON.stringify with no indentation, as called by every handler. -/
def stringify : Json → String
  | .str s => escString s
  | .num q => ratToString q
  | .arr xs => "[" ++ stringifyList xs ++ "]"
  | .obj kvs => "\x7b" ++ stringifyKVs kvs ++ "\x7d"

/-- Comma-separated serialization of array elements. -/
def stringifyList : List Json → String
  | [] => ""
  | [x] => stringify x
  | x :: y :: rest => stringify x ++ "," ++ stringifyList (y :: rest)

/-- Comma-separated serialization of object members. -/
def stringifyKVs : List (String × Json) → String
  | [] => ""
  | [(k, v)] => escString k ++ ":" ++ stringify v
  | (k, v) :: p :: rest => escString k ++ ":" ++ stringify v ++ "," ++ stringifyKVs (p :: rest)

end

/-- Field lookup in a JSON object (first binding wins). -/
def lookupKV : List (String × Json) → String → Option Json
  | [], _ => none
  | (k, v) :: rest, key => if k = key then some v else lookupKV rest key

/-- The value of a named field of a JSON object, if present. -/
def getField (j : Json) (key : String) : Option Json :=
  match j with
  | .obj kvs => lookupKV kvs key
  | _ => none

/-- Whether a JSON value is an object carrying the named field. -/
def hasField (j : Json) (key : String) : Bool :=
  (getField j key).isSome

/-! ## Path arithmetic (Node path.resolve / path.join, POSIX rules)

The handlers call path.resolve(process.cwd(), p).  process.cwd() is always an
absolute normalized path, so the model below covers resolution against an
absolute base.  Computation is done on the character list of the string so
that every definition reduces in the kernel. -/

/-- Split a path string into its slash-separated chunks (accumulator holds the
current chunk reversed). -/
def splitSegsAux : List Char → List Char → List String
  | cur, [] => [String.mk cur.reverse]
  | cur, c :: rest =>
    if c = '/' then String.mk cur.reverse :: splitSegsAux [] rest
    else splitSegsAux (c :: cur) rest

/-- The nonempty slash-separated components of a path. -/
def splitPath (s : String) : List String :=
  (splitSegsAux [] s.data).filter (fun seg => seg ≠ "")

/-- Whether a path string is absolute (begins with a slash). -/
def isAbsolutePath (s : String) : Bool :=
  match s.data with
  | c :: _ => c = '/'
  | [] => false

/-- One normalization step: "." is dropped, ".." pops the last component
(at the root it is dropped), anything else is pushed. -/
def normStack (stack : List String) (seg : String) : List String :=
  if seg = "." then stack
  else if seg = ".." then stack.dropLast
  else stack ++ [seg]

/-- Render an absolute path from its normalized components. -/
def joinSegs : List String → String
  | [] => ""
  | [x] => x
  | x :: y :: rest => x ++ "/" ++ joinSegs (y :: rest)

/-- Node path.resolve(base, p) for an absolute base: an absolute p discards
the base, otherwise the components are concatenated; the result is
normalized (".", "..", duplicate slashes). -/
def pathResolve (base p : String) : String :=
  let segs := if isAbsolutePath p then splitPath p else splitPath base ++ splitPath p
  "/" ++ joinSegs (segs.foldl normStack [])

/-- Node path.join(base, p) for an absolute base: the components are always
concatenated (an absolute p does not discard the base), then normalized. -/
def pathJoin (base p : String) : String :=
  "/" ++ joinSegs ((splitPath base ++ splitPath p).foldl normStack [])

/-- JS `v || d` for an optional string argument: both an absent argument and
the empty string (the only falsy string) are replaced by the default. -/
def jsOr (v : Option String) (d : String) : String :=
  match v with
  | none => d
  | some s => if s = "" then d else s

/-! ## Filesystem model -/

/-- One fs.Dirent as returned by fs.readdir with withFileTypes: true. -/
structure Dirent where
  name : String
  isDirectory : Bool
  isFile : Bool
deriving DecidableEq

/-- The observable filesystem: readFile resolves to text content or rejects
with an error message; readdir resolves to the immediate entries of a
directory or rejects with an error message. -/
structure FileSystem where
  readFile : String → Except String String
  readdir : String → Except String (List Dirent)

/-- The result object every handler returns: content is the single text block
(the serialized payload) and structuredContent the machine-readable payload. -/
structure ToolResult where
  text : String
  structuredContent : Json

/-- The classification expression shared by both list_project_directory
variants: entry.isDirectory() then entry.isFile() then other. -/
def direntType (e : Dirent) : String :=
  if e.isDirectory then "directory" else if e.isFile then "file" else "other"

/-! ## Date model (ECMA-262, for Date.prototype.toISOString)

Instants are epoch milliseconds as a Nat; the definitions below transcribe
the ECMA-262 date abstract operations (Day, TimeWithinDay, HourFromTime,
YearFromTime, MonthFromTime, DateFromTime) restricted to nonnegative time
values, where the integer floors of the standard coincide with Nat division. -/

/-- ECMA Day(t). -/
def dayNumber (t : Nat) : Nat := t / 86400000

/-- ECMA HourFromTime(t). -/
def hourFromTime (t : Nat) : Nat := t / 3600000 % 24

/-- ECMA MinFromTime(t). -/
def minuteFromTime (t : Nat) : Nat := t / 60000 % 60

/-- ECMA SecFromTime(t). -/
def secondFromTime (t : Nat) : Nat := t / 1000 % 60

/-- ECMA msFromTime(t). -/
def msFromTime (t : Nat) : Nat := t % 1000

/-- ECMA DayFromYear(y), for y at least 1970 (nonnegative time values). -/
def dayFromYear (y : Nat) : Nat :=
  365 * (y - 1970) + (y - 1969) / 4 - (y - 1901) / 100 + (y - 1601) / 400

/-- ECMA DaysInYear(y). -/
def daysInYear (y : Nat) : Nat :=
  if y % 4 ≠ 0 then 365
  else if y % 100 ≠ 0 then 366
  else if y % 400 ≠ 0 then 365
  else 366

/-- ECMA InLeapYear as a Bool. -/
def inLeapYear (y : Nat) : Bool := daysInYear y = 366

/-- ECMA YearFromTime on day numbers: the unique y with
DayFromYear(y) ≤ d < DayFromYear(y+1), computed by a first-order guess from
the 400-year cycle of 146097 days followed by a correction step. -/
def yearFromDay (d : Nat) : Nat :=
  let y0 := 1970 + 400 * d / 146097
  if d < dayFromYear y0 then y0 - 1
  else if d < dayFromYear (y0 + 1) then y0
  else y0 + 1

/-- ECMA YearFromTime(t). -/
def yearFromTime (t : Nat) : Nat := yearFromDay (dayNumber t)

/-- ECMA DayWithinYear(t). -/
def dayWithinYear (t : Nat) : Nat := dayNumber t - dayFromYear (yearFromTime t)

/-- Days before month m (0-based) in a year, with the leap correction of
ECMA MonthFromTime; index 12 is the sentinel (total days of the year). -/
def cumDays (leap : Bool) (m : Nat) : Nat :=
  let L := if leap then 1 else 0
  match m with
  | 0 => 0
  | 1 => 31
  | 2 => 59 + L
  | 3 => 90 + L
  | 4 => 120 + L
  | 5 => 151 + L
  | 6 => 181 + L
  | 7 => 212 + L
  | 8 => 243 + L
  | 9 => 273 + L
  | 10 => 304 + L
  | 11 => 334 + L
  | _ => 365 + L

/-- ECMA MonthFromTime on a day-within-year value (0-based month). -/
def monthFromDwy (leap : Bool) (dwy : Nat) : Nat :=
  let L := if leap then 1 else 0
  if dwy < 31 then 0
  else if dwy < 59 + L then 1
  else if dwy < 90 + L then 2
  else if dwy < 120 + L then 3
  else if dwy < 151 + L then 4
  else if dwy < 181 + L then 5
  else if dwy < 212 + L then 6
  else if dwy < 243 + L then 7
  else if dwy < 273 + L then 8
  else if dwy < 304 + L then 9
  else if dwy < 334 + L then 10
  else 11

/-- ECMA MonthFromTime(t) (0-based). -/
def monthFromTime (t : Nat) : Nat :=
  monthFromDwy (inLeapYear (yearFromTime t)) (dayWithinYear t)

/-- ECMA DateFromTime(t) (1-based day of month). -/
def dateFromTime (t : Nat) : Nat :=
  dayWithinYear t - cumDays (inLeapYear (yearFromTime t)) (monthFromTime t) + 1

/-- The decimal digit character for n < 10. -/
def digitChar (n : Nat) : Char := Char.ofNat (48 + n)

/-- Two zero-padded decimal digits. -/
def pad2 (n : Nat) : List Char := [digitChar (n / 10 % 10), digitChar (n % 10)]

/-- Three zero-padded decimal digits. -/
def pad3 (n : Nat) : List Char :=
  [digitChar (n / 100 % 10), digitChar (n / 10 % 10), digitChar (n % 10)]

/-- Four zero-padded decimal digits. -/
def pad4 (n : Nat) : List Char :=
  [digitChar (n / 1000 % 10), digitChar (n / 100 % 10), digitChar (n / 10 % 10),
   digitChar (n % 10)]

/-- Six zero-padded decimal digits (the expanded-year form of toISOString). -/
def pad6 (n : Nat) : List Char :=
  [digitChar (n / 100000 % 10), digitChar (n / 10000 % 10), digitChar (n / 1000 % 10),
   digitChar (n / 100 % 10), digitChar (n / 10 % 10), digitChar (n % 10)]

/-- The part of the toISOString rendering after the year field:
"-MM-DDTHH:mm:ss.sssZ" with the month rendered 1-based. -/
def isoTail (t : Nat) : List Char :=
  '-' :: (pad2 (monthFromTime t + 1) ++
    ('-' :: (pad2 (dateFromTime t) ++
      ('T' :: (pad2 (hourFromTime t) ++
        (':' :: (pad2 (minuteFromTime t) ++
          (':' :: (pad2 (secondFromTime t) ++
            ('.' :: (pad3 (msFromTime t) ++ ['Z'])))))))))))

/-- Date.prototype.toISOString (ECMA-262), character list: years up to 9999
use the fixed four-digit year form; from year 10000 on the standard switches
to the expanded form with a sign and a six-digit year. -/
def isoChars (t : Nat) : List Char :=
  if yearFromTime t ≤ 9999 then pad4 (yearFromTime t) ++ isoTail t
  else '+' :: (pad6 (yearFromTime t) ++ isoTail t)

/-- Date.prototype.toISOString as a String. -/
def toISOString (t : Nat) : String := String.mk (isoChars t)

/-- The numeric value of a decimal digit character. -/
def digitVal (c : Char) : Nat := c.toNat - 48

/-- Parser for the fixed 24-character toISOString form: checks the layout,
the digits and the field ranges, and recomposes the epoch milliseconds. -/
def parseIsoChars : List Char → Option Nat
  | [y1, y2, y3, y4, a1, m1, m2, a2, d1, d2, a3, h1, h2, a4, i1, i2, a5, s1, s2, a6,
     p1, p2, p3, a7] =>
    if a1 = '-' ∧ a2 = '-' ∧ a3 = 'T' ∧ a4 = ':' ∧ a5 = ':' ∧ a6 = '.' ∧ a7 = 'Z' ∧
       ([y1, y2, y3, y4, m1, m2, d1, d2, h1, h2, i1, i2, s1, s2, p1, p2, p3].all
         (fun c => c.isDigit)) then
      let y := digitVal y1 * 1000 + digitVal y2 * 100 + digitVal y3 * 10 + digitVal y4
      let mo := digitVal m1 * 10 + digitVal m2
      let da := digitVal d1 * 10 + digitVal d2
      let h := digitVal h1 * 10 + digitVal h2
      let mi := digitVal i1 * 10 + digitVal i2
      let se := digitVal s1 * 10 + digitVal s2
      let ms := digitVal p1 * 100 + digitVal p2 * 10 + digitVal p3
      if 1970 ≤ y ∧ 1 ≤ mo ∧ mo ≤ 12 ∧ 1 ≤ da ∧ da ≤ 31 ∧ h ≤ 23 ∧ mi ≤ 59 ∧ se ≤ 59 then
        some ((dayFromYear y + cumDays (inLeapYear y) (mo - 1) + (da - 1)) * 86400000 +
              h * 3600000 + mi * 60000 + se * 1000 + ms)
      else none
    else none
  | _ => none

/-- Parser for the fixed 24-character toISOString form, on strings. -/
def parseIso (s : String) : Option Nat := parseIsoChars s.data

/-- Deterministic stand-in for toLocaleString with the en-IN locale and the
Asia/Kolkata time zone: the instant shifted to UTC+05:30, rendered by the
date model above.  The locale-dependent spelling is abstracted; every claim
only uses that this is a fixed function of the instant. -/
def humanIST (t : Nat) : String := "IST " ++ String.mk (isoChars (t + 19800000))

namespace ServerTs

/-! Handlers of src/src/server.ts. -/

/-- add_numbers handler: output is the sum, returned serialized and
structured. -/
def add_numbers (a b : Rat) : ToolResult :=
  let output : Json := .obj [("result", .num (a + b))]
  { text := stringify output, structuredContent := output }

/-- current_time_ist handler: captures the instant once, builds iso and human
renderings, returns the one output object serialized and structured. -/
def current_time_ist (now : Nat) : ToolResult :=
  let iso := toISOString now
  let human := humanIST now
  let output : Json := .obj [("iso", .str iso), ("human", .str human)]
  { text := stringify output, structuredContent := output }

/-- read_project_file handler: resolves the path against the working
directory, then either returns the file content or catches the read failure
and reports its message in the payload. -/
def read_project_file (cwd : String) (fs : FileSystem) (relativePath : String) : ToolResult :=
  let absolutePath := pathResolve cwd relativePath
  match fs.readFile absolutePath with
  | .ok content =>
    let output : Json := .obj [("relativePath", .str relativePath),
      ("absolutePath", .str absolutePath), ("content", .str content)]
    { text := stringify output, structuredContent := output }
  | .error emsg =>
    let output : Json := .obj [("relativePath", .str relativePath),
      ("absolutePath", .str absolutePath), ("error", .str emsg)]
    { text := stringify output, structuredContent := output }

/-- list_project_directory handler: defaults the argument with JS or-else,
resolves, lists and classifies the entries; a readdir failure is caught and
reported with an empty entries array in this variant. -/
def list_project_directory (cwd : String) (fs : FileSystem) (relativePath : Option String) :
    ToolResult :=
  let dirPath := pathResolve cwd (jsOr relativePath ".")
  match fs.readdir dirPath with
  | .ok dirEntries =>
    let entries : List Json := dirEntries.map (fun e =>
      Json.obj [("name", .str e.name), ("type", .str (direntType e))])
    let output : Json := .obj [("directory", .str dirPath), ("entries", .arr entries)]
    { text := stringify output, structuredContent := output }
  | .error emsg =>
    let output : Json := .obj [("directory", .str dirPath), ("entries", .arr []),
      ("error", .str emsg)]
    { text := stringify output, structuredContent := output }

end ServerTs

namespace Part000

/-! Handlers of src/unnamed/part_000. -/

/-- add_numbers handler of the part_000 variant. -/
def add_numbers (a b : Rat) : ToolResult :=
  let result := a + b
  { text := stringify (.obj [("result", .num result)]),
    structuredContent := .obj [("result", .num result)] }

/-- current_time_ist handler of the part_000 variant: the text block and the
structured payload are built by two separate but identical expressions over
the same captured instant. -/
def current_time_ist (now : Nat) : ToolResult :=
  { text := stringify (.obj [("iso", .str (toISOString now)),
      ("human", .str (humanIST now))]),
    structuredContent := .obj [("iso", .str (toISOString now)),
      ("human", .str (humanIST now))] }

/-- read_project_file handler of the part_000 variant. -/
def read_project_file (cwd : String) (fs : FileSystem) (relativePath : String) : ToolResult :=
  let absolutePath := pathResolve cwd relativePath
  match fs.readFile absolutePath with
  | .ok content =>
    { text := stringify (.obj [("relativePath", .str relativePath),
        ("absolutePath", .str absolutePath), ("content", .str content)]),
      structuredContent := .obj [("relativePath", .str relativePath),
        ("absolutePath", .str absolutePath), ("content", .str content)] }
  | .error emsg =>
    { text := stringify (.obj [("relativePath", .str relativePath),
        ("absolutePath", .str absolutePath), ("error", .str emsg)]),
      structuredContent := .obj [("relativePath", .str relativePath),
        ("absolutePath", .str absolutePath), ("error", .str emsg)] }

/-- list_project_directory handler of the part_000 variant: the catch branch
reports only the directory and the error message, with no entries field. -/
def list_project_directory (cwd : String) (fs : FileSystem) (relativePath : Option String) :
    ToolResult :=
  let dirPath := pathResolve cwd (jsOr relativePath ".")
  match fs.readdir dirPath with
  | .ok files =>
    let entries : List Json := files.map (fun e =>
      Json.obj [("name", .str e.name), ("type", .str (direntType e))])
    { text := stringify (.obj [("directory", .str dirPath), ("entries", .arr entries)]),
      structuredContent := .obj [("directory", .str dirPath), ("entries", .arr entries)] }
  | .error emsg =>
    { text := stringify (.obj [("directory", .str dirPath), ("error", .str emsg)]),
      structuredContent := .obj [("directory", .str dirPath), ("error", .str emsg)] }

end Part000

/-! ## Dispatch façade

Modelled from the spec: the dispatch mapping itself lives in the imported
MCP SDK, not in this repository; section 4.1 of the design document states
the contract (UnknownOperation when no registered entry matches the name,
ValidationError on a schema mismatch, otherwise the handler runs on the
validated input).  The catalog below is exactly the four registerTool calls
of src/src/server.ts, in registration order. -/

/-- The outcome of one dispatch: a dispatch-layer failure is a distinct
variant, never a handler-shaped envelope. -/
inductive DispatchOutcome where
  | ok : ToolResult → DispatchOutcome
  | unknownOperation : String → DispatchOutcome
  | validationError : String → DispatchOutcome

/-- The fixed registered catalog, in registration order. -/
def catalog : List String :=
  ["add_numbers", "current_time_ist", "read_project_file", "list_project_directory"]

/-- Modelled from the spec: dispatch(name, rawInput) — looks the name up in
the registry; on a match validates the raw JSON input against the entry's
schema and runs the handler (the ServerTs handlers), otherwise fails with
the distinct unknown-operation error. -/
def dispatch (cwd : String) (fs : FileSystem) (now : Nat) (name : String) (rawInput : Json) :
    DispatchOutcome :=
  if name = "add_numbers" then
    match getField rawInput "a", getField rawInput "b" with
    | some (.num a), some (.num b) => .ok (ServerTs.add_numbers a b)
    | _, _ => .validationError name
  else if name = "current_time_ist" then
    .ok (ServerTs.current_time_ist now)
  else if name = "read_project_file" then
    match getField rawInput "relativePath" with
    | some (.str p) => .ok (ServerTs.read_project_file cwd fs p)
    | _ => .validationError name
  else if name = "list_project_directory" then
    match getField rawInput "relativePath" with
    | some (.str p) => .ok (ServerTs.list_project_directory cwd fs (some p))
    | none => .ok (ServerTs.list_project_directory cwd fs none)
    | some _ => .validationError name
  else .unknownOperation name

/-! ## POST /mcp connection wrapper -/

/-- What one request-response exchange against the transport does, seen from
the Express handler: it completes, or an awaited step rejects before the
response headers were sent, or it rejects after the response was committed. -/
inductive ExchangeResult where
  | done : ExchangeResult
  | failBefore : String → ExchangeResult
  | failAfter : String → ExchangeResult

/-- The observable outcome of one POST /mcp request. -/
inductive PostOutcome where
  | handled : PostOutcome
  | jsonError : Nat → Json → PostOutcome
  | loggedOnly : String → PostOutcome
  | unhandledRejection : String → PostOutcome

/-- The POST /mcp handler of src/src/server.ts: the whole exchange sits in a
try block; the catch logs, and sends status 500 with the fixed error body
only when the headers have not been sent yet. -/
def serverTsPostMcp (x : ExchangeResult) : PostOutcome :=
  match x with
  | .done => .handled
  | .failBefore _ => .jsonError 500 (.obj [("error", .str "Internal MCP server error")])
  | .failAfter emsg => .loggedOnly emsg

/-- The POST /mcp handler of src/unnamed/part_000: there is no try/catch
around the exchange, so a rejection escapes the async handler unhandled. -/
def part000PostMcp (x : ExchangeResult) : PostOutcome :=
  match x with
  | .done => .handled
  | .failBefore emsg => .unhandledRejection emsg
  | .failAfter emsg => .unhandledRejection emsg

/-! ## Calendar lemmas for toISOString -/

/-- daysInYear takes only the two values 365 and 366, and 366 exactly on
Gregorian leap years. -/
theorem daysInYear_cases (y : Nat) :
    (daysInYear y = 365 ∨ daysInYear y = 366) ∧
    (daysInYear y = 366 ↔ (y % 4 = 0 ∧ (y % 100 ≠ 0 ∨ y % 400 = 0))) := by
  unfold daysInYear
  split_ifs <;> simp_all

/-- The leap indicator written as daysInYear minus 365. -/
theorem daysInYear_eq_L (y : Nat) :
    daysInYear y = 365 + (if inLeapYear y then 1 else 0) := by
  have h1 := (daysInYear_cases y).1
  unfold inLeapYear
  rcases h1 with h | h <;> simp [h]

set_option maxHeartbeats 2000000 in
/-- Successive year starts differ by exactly the length of the year. -/
theorem dayFromYear_succ (y : Nat) (h : 1970 ≤ y) :
    dayFromYear (y + 1) = dayFromYear y + daysInYear y := by
  have h1 := daysInYear_cases y
  simp only [dayFromYear]
  omega

/-- One monotonicity step of dayFromYear. -/
theorem dayFromYear_step (y : Nat) (h : 1970 ≤ y) :
    dayFromYear y ≤ dayFromYear (y + 1) := by
  unfold dayFromYear
  omega

/-- dayFromYear is monotone from 1970 on. -/
theorem dayFromYear_mono {y1 y2 : Nat} (h0 : 1970 ≤ y1) (h : y1 ≤ y2) :
    dayFromYear y1 ≤ dayFromYear y2 := by
  induction y2, h using Nat.le_induction with
  | base => exact le_rfl
  | succ n hn ih => exact ih.trans (dayFromYear_step n (h0.trans hn))

/-- The year computed by yearFromDay is characterized by the ECMA
YearFromTime condition: its first day is at or before d and the next year
starts strictly after d. -/
theorem yearFromDay_spec (d : Nat) :
    1970 ≤ yearFromDay d ∧ dayFromYear (yearFromDay d) ≤ d ∧
      d < dayFromYear (yearFromDay d + 1) := by
  have hdm := Nat.div_add_mod (400 * d) 146097
  have hmlt : 400 * d % 146097 < 146097 := Nat.mod_lt _ (by omega)
  simp only [yearFromDay]
  set q := 400 * d / 146097 with hq
  split_ifs with hb1 hb2
  · rcases Nat.eq_zero_or_pos q with h0 | h0
    · exfalso
      rw [h0] at hb1
      simp only [dayFromYear] at hb1
      omega
    · rw [show 1970 + q - 1 + 1 = 1970 + q from by omega]
      simp only [dayFromYear] at hb1 ⊢
      omega
  · simp only [dayFromYear] at hb1 hb2 ⊢
    omega
  · simp only [dayFromYear] at hb1 hb2 ⊢
    omega

/-- Day numbers up to 9999-12-31 stay in four-digit years. -/
theorem yearFromDay_le_9999 (d : Nat) (h : d ≤ 2932896) : yearFromDay d ≤ 9999 := by
  by_contra hc
  push_neg at hc
  have hs := yearFromDay_spec d
  have hm : dayFromYear 10000 ≤ dayFromYear (yearFromDay d) :=
    dayFromYear_mono (by omega) (by omega)
  have h10000 : dayFromYear 10000 = 2932897 := by decide
  omega

/-- yearFromDay is monotone. -/
theorem yearFromDay_mono {d1 d2 : Nat} (h : d1 ≤ d2) :
    yearFromDay d1 ≤ yearFromDay d2 := by
  by_contra hc
  push_neg at hc
  have hs1 := yearFromDay_spec d1
  have hs2 := yearFromDay_spec d2
  have hm : dayFromYear (yearFromDay d2 + 1) ≤ dayFromYear (yearFromDay d1) :=
    dayFromYear_mono (by omega) (by omega)
  omega

/-- The day within the year is less than the length of the year. -/
theorem dayWithinYear_lt (t : Nat) : dayWithinYear t < daysInYear (yearFromTime t) := by
  have hs := yearFromDay_spec (dayNumber t)
  have hsucc := dayFromYear_succ (yearFromDay (dayNumber t)) hs.1
  unfold dayWithinYear yearFromTime
  omega

set_option maxRecDepth 10000 in
/-- Characterization of the month ladder: the cumulative day count of the
computed month bounds the day within the year, and the month is one of the
twelve. -/
theorem monthFromDwy_spec : ∀ (leap : Bool), ∀ dwy, dwy < 365 + (if leap then 1 else 0) →
    monthFromDwy leap dwy ≤ 11 ∧ cumDays leap (monthFromDwy leap dwy) ≤ dwy ∧
      dwy < cumDays leap (monthFromDwy leap dwy + 1) := by decide

/-- cumDays is monotone in the month index. -/
theorem cumDays_mono_le : ∀ (L : Bool), ∀ m1, m1 < 13 → ∀ m2, m2 < 13 → m1 ≤ m2 →
    cumDays L m1 ≤ cumDays L m2 := by decide

/-- Every month spans at most 31 days. -/
theorem cumDays_gap : ∀ (L : Bool), ∀ m, m < 12 → cumDays L (m + 1) ≤ cumDays L m + 31 := by
  decide

/-- HourFromTime as the hour of the time within the day. -/
theorem hourFromTime_eq (t : Nat) : hourFromTime t = t % 86400000 / 3600000 := by
  unfold hourFromTime; omega

/-- MinFromTime as the minute of the time within the day. -/
theorem minuteFromTime_eq (t : Nat) : minuteFromTime t = t % 86400000 % 3600000 / 60000 := by
  unfold minuteFromTime; omega

/-- SecFromTime as the second of the time within the day. -/
theorem secondFromTime_eq (t : Nat) :
    secondFromTime t = t % 86400000 % 3600000 % 60000 / 1000 := by
  unfold secondFromTime; omega

/-- msFromTime as the millisecond of the time within the day. -/
theorem msFromTime_eq (t : Nat) : msFromTime t = t % 86400000 % 3600000 % 60000 % 1000 := by
  unfold msFromTime; omega

/-- Within one day, a later instant compares lexicographically later on the
(hour, minute, second, millisecond) fields. -/
theorem timeFields_mono (t1 t2 : Nat) (hd : dayNumber t1 = dayNumber t2) (h : t1 < t2) :
    hourFromTime t1 < hourFromTime t2 ∨ (hourFromTime t1 = hourFromTime t2 ∧
      (minuteFromTime t1 < minuteFromTime t2 ∨ (minuteFromTime t1 = minuteFromTime t2 ∧
        (secondFromTime t1 < secondFromTime t2 ∨ (secondFromTime t1 = secondFromTime t2 ∧
          msFromTime t1 < msFromTime t2))))) := by
  have hr : t1 % 86400000 < t2 % 86400000 := by unfold dayNumber at hd; omega
  rw [hourFromTime_eq, hourFromTime_eq, minuteFromTime_eq, minuteFromTime_eq,
    secondFromTime_eq, secondFromTime_eq, msFromTime_eq, msFromTime_eq]
  generalize t1 % 86400000 = a at hr
  generalize t2 % 86400000 = b at hr
  rcases Nat.lt_or_ge (a / 3600000) (b / 3600000) with h1 | h1
  · exact Or.inl h1
  · have e1 : a / 3600000 = b / 3600000 := by omega
    have hr2 : a % 3600000 < b % 3600000 := by omega
    refine Or.inr ⟨e1, ?_⟩
    generalize a % 3600000 = c at hr2
    generalize b % 3600000 = d at hr2
    rcases Nat.lt_or_ge (c / 60000) (d / 60000) with h2 | h2
    · exact Or.inl h2
    · have e2 : c / 60000 = d / 60000 := by omega
      have hr3 : c % 60000 < d % 60000 := by omega
      refine Or.inr ⟨e2, ?_⟩
      generalize c % 60000 = e at hr3
      generalize d % 60000 = f at hr3
      rcases Nat.lt_or_ge (e / 1000) (f / 1000) with h3 | h3
      · exact Or.inl h3
      · have e3 : e / 1000 = f / 1000 := by omega
        have hr4 : e % 1000 < f % 1000 := by omega
        exact Or.inr ⟨e3, hr4⟩

/-- A later instant compares lexicographically later on the full field tuple
(year, month, date, hour, minute, second, millisecond). -/
theorem isoFields_mono (t1 t2 : Nat) (h : t1 < t2) :
    yearFromTime t1 < yearFromTime t2 ∨ (yearFromTime t1 = yearFromTime t2 ∧
     (monthFromTime t1 < monthFromTime t2 ∨ (monthFromTime t1 = monthFromTime t2 ∧
      (dateFromTime t1 < dateFromTime t2 ∨ (dateFromTime t1 = dateFromTime t2 ∧
       (hourFromTime t1 < hourFromTime t2 ∨ (hourFromTime t1 = hourFromTime t2 ∧
        (minuteFromTime t1 < minuteFromTime t2 ∨ (minuteFromTime t1 = minuteFromTime t2 ∧
         (secondFromTime t1 < secondFromTime t2 ∨ (secondFromTime t1 = secondFromTime t2 ∧
          msFromTime t1 < msFromTime t2))))))))))) := by
  by_cases hday : dayNumber t1 = dayNumber t2
  · have hY : yearFromTime t1 = yearFromTime t2 := by unfold yearFromTime; rw [hday]
    have hdwy : dayWithinYear t1 = dayWithinYear t2 := by
      unfold dayWithinYear yearFromTime; rw [hday]
    have hM : monthFromTime t1 = monthFromTime t2 := by
      unfold monthFromTime; rw [hdwy, hY]
    have hD : dateFromTime t1 = dateFromTime t2 := by
      unfold dateFromTime; rw [hdwy, hY, hM]
    exact Or.inr ⟨hY, Or.inr ⟨hM, Or.inr ⟨hD, timeFields_mono t1 t2 hday h⟩⟩⟩
  · have hdlt : dayNumber t1 < dayNumber t2 :=
      lt_of_le_of_ne (Nat.div_le_div_right h.le : dayNumber t1 ≤ dayNumber t2) hday
    have hYle : yearFromTime t1 ≤ yearFromTime t2 := yearFromDay_mono hdlt.le
    rcases Nat.lt_or_ge (yearFromTime t1) (yearFromTime t2) with hY | hYge
    · exact Or.inl hY
    · have hY : yearFromTime t1 = yearFromTime t2 := le_antisymm hYle hYge
      refine Or.inr ⟨hY, ?_⟩
      have hs1 := yearFromDay_spec (dayNumber t1)
      have hdf : dayFromYear (yearFromTime t1) = dayFromYear (yearFromTime t2) := by rw [hY]
      have hdwlt : dayWithinYear t1 < dayWithinYear t2 := by
        unfold dayWithinYear
        unfold yearFromTime at hdf hs1 ⊢
        omega
      have hld : inLeapYear (yearFromTime t1) = inLeapYear (yearFromTime t2) := by rw [hY]
      have hdwy2 := dayWithinYear_lt t2
      have hL := daysInYear_eq_L (yearFromTime t2)
      have hm1 := monthFromDwy_spec (inLeapYear (yearFromTime t2)) (dayWithinYear t1) (by omega)
      have hm2 := monthFromDwy_spec (inLeapYear (yearFromTime t2)) (dayWithinYear t2) (by omega)
      have hM1def : monthFromTime t1 =
          monthFromDwy (inLeapYear (yearFromTime t2)) (dayWithinYear t1) := by
        unfold monthFromTime; rw [hld]
      have hM2def : monthFromTime t2 =
          monthFromDwy (inLeapYear (yearFromTime t2)) (dayWithinYear t2) := rfl
      have hMle : monthFromTime t1 ≤ monthFromTime t2 := by
        rw [hM1def, hM2def]
        by_contra hc
        push_neg at hc
        have hcm := cumDays_mono_le (inLeapYear (yearFromTime t2))
          (monthFromDwy (inLeapYear (yearFromTime t2)) (dayWithinYear t2) + 1) (by omega)
          (monthFromDwy (inLeapYear (yearFromTime t2)) (dayWithinYear t1)) (by omega) (by omega)
        omega
      rcases Nat.lt_or_ge (monthFromTime t1) (monthFromTime t2) with hM | hMge
      · exact Or.inl hM
      · have hM : monthFromTime t1 = monthFromTime t2 := le_antisymm hMle hMge
        refine Or.inr ⟨hM, Or.inl ?_⟩
        have hD1 : dateFromTime t1 = dayWithinYear t1 -
            cumDays (inLeapYear (yearFromTime t2))
              (monthFromDwy (inLeapYear (yearFromTime t2)) (dayWithinYear t1)) + 1 := by
          unfold dateFromTime monthFromTime; rw [hld]
        have hD2 : dateFromTime t2 = dayWithinYear t2 -
            cumDays (inLeapYear (yearFromTime t2))
              (monthFromDwy (inLeapYear (yearFromTime t2)) (dayWithinYear t2)) + 1 := rfl
        rw [hM1def, hM2def] at hM
        rw [hM] at hm1 hD1
        rw [hD1, hD2]
        omega

/-- Bounds of the rendered month and day fields. -/
theorem monthDate_bounds (t : Nat) :
    monthFromTime t ≤ 11 ∧ 1 ≤ dateFromTime t ∧ dateFromTime t ≤ 31 := by
  have hdwy := dayWithinYear_lt t
  have hL := daysInYear_eq_L (yearFromTime t)
  have hm := monthFromDwy_spec (inLeapYear (yearFromTime t)) (dayWithinYear t) (by omega)
  have hMdef : monthFromTime t = monthFromDwy (inLeapYear (yearFromTime t)) (dayWithinYear t) :=
    rfl
  rw [← hMdef] at hm
  have hgap := cumDays_gap (inLeapYear (yearFromTime t)) (monthFromTime t) (by omega)
  have hDdef : dateFromTime t =
      dayWithinYear t - cumDays (inLeapYear (yearFromTime t)) (monthFromTime t) + 1 := rfl
  omega

/-! ## Digit and fixed-width rendering lemmas -/

/-- Digit characters compare like their digits. -/
theorem digitChar_lt_all : ∀ x, x < 10 → ∀ y, y < 10 → x < y → digitChar x < digitChar y := by
  decide

/-- digitVal inverts digitChar on digits. -/
theorem digitVal_digitChar : ∀ x, x < 10 → digitVal (digitChar x) = x := by decide

/-- Digit characters satisfy isDigit. -/
theorem digitChar_isDigit : ∀ x, x < 10 → (digitChar x).isDigit = true := by decide

/-- Strict monotonicity of the two-digit rendering. -/
theorem pad2_lex {a b : Nat} (h : a < b) (hb : b < 100) :
    List.Lex (· < ·) (pad2 a) (pad2 b) := by
  rcases Nat.lt_or_ge (a / 10) (b / 10) with hq | hq
  · exact List.Lex.rel (digitChar_lt_all _ (by omega) _ (by omega) (by omega))
  · have e1 : a / 10 % 10 = b / 10 % 10 := by omega
    simp only [pad2, e1]
    exact List.Lex.cons (List.Lex.rel (digitChar_lt_all _ (by omega) _ (by omega) (by omega)))

/-- Strict monotonicity of the three-digit rendering. -/
theorem pad3_lex {a b : Nat} (h : a < b) (hb : b < 1000) :
    List.Lex (· < ·) (pad3 a) (pad3 b) := by
  rcases Nat.lt_or_ge (a / 100) (b / 100) with h2 | h2
  · exact List.Lex.rel (digitChar_lt_all _ (by omega) _ (by omega) (by omega))
  · have e2 : a / 100 % 10 = b / 100 % 10 := by omega
    simp only [pad3, e2]
    rcases Nat.lt_or_ge (a / 10) (b / 10) with h1 | h1
    · exact List.Lex.cons (List.Lex.rel (digitChar_lt_all _ (by omega) _ (by omega) (by omega)))
    · have e1 : a / 10 % 10 = b / 10 % 10 := by omega
      simp only [e1]
      exact List.Lex.cons (List.Lex.cons (List.Lex.rel
        (digitChar_lt_all _ (by omega) _ (by omega) (by omega))))

/-- Strict monotonicity of the four-digit rendering. -/
theorem pad4_lex {a b : Nat} (h : a < b) (hb : b < 10000) :
    List.Lex (· < ·) (pad4 a) (pad4 b) := by
  rcases Nat.lt_or_ge (a / 1000) (b / 1000) with h3 | h3
  · exact List.Lex.rel (digitChar_lt_all _ (by omega) _ (by omega) (by omega))
  · have e3 : a / 1000 % 10 = b / 1000 % 10 := by omega
    simp only [pad4, e3]
    rcases Nat.lt_or_ge (a / 100) (b / 100) with h2 | h2
    · exact List.Lex.cons (List.Lex.rel (digitChar_lt_all _ (by omega) _ (by omega) (by omega)))
    · have e2 : a / 100 % 10 = b / 100 % 10 := by omega
      simp only [e2]
      rcases Nat.lt_or_ge (a / 10) (b / 10) with h1 | h1
      · exact List.Lex.cons (List.Lex.cons (List.Lex.rel
          (digitChar_lt_all _ (by omega) _ (by omega) (by omega))))
      · have e1 : a / 10 % 10 = b / 10 % 10 := by omega
        simp only [e1]
        exact List.Lex.cons (List.Lex.cons (List.Lex.cons (List.Lex.rel
          (digitChar_lt_all _ (by omega) _ (by omega) (by omega)))))

/-- A strict lexicographic comparison of equal-length prefixes decides the
comparison of the concatenations. -/
theorem lex_append_eqlen : ∀ {x y : List Char}, x.length = y.length →
    List.Lex (· < ·) x y → ∀ (r s : List Char), List.Lex (· < ·) (x ++ r) (y ++ s) := by
  intro x y hlen h
  induction h with
  | nil => simp at hlen
  | rel hr => intro r s; exact List.Lex.rel hr
  | cons h ih =>
    intro r s
    exact List.Lex.cons (ih (by simpa using hlen) r s)

/-- Compare two-digit fields first, the remainder on a tie. -/
theorem lex_field2 (a b : Nat) (r s : List Char) (hb : b < 100)
    (h : a < b ∨ (a = b ∧ List.Lex (· < ·) r s)) :
    List.Lex (· < ·) (pad2 a ++ r) (pad2 b ++ s) := by
  rcases h with h | ⟨rfl, h⟩
  · exact lex_append_eqlen (show (pad2 a).length = (pad2 b).length from rfl)
      (pad2_lex h hb) r s
  · exact List.Lex.append_left _ h _

/-- Compare three-digit fields first, the remainder on a tie. -/
theorem lex_field3 (a b : Nat) (r s : List Char) (hb : b < 1000)
    (h : a < b ∨ (a = b ∧ List.Lex (· < ·) r s)) :
    List.Lex (· < ·) (pad3 a ++ r) (pad3 b ++ s) := by
  rcases h with h | ⟨rfl, h⟩
  · exact lex_append_eqlen (show (pad3 a).length = (pad3 b).length from rfl)
      (pad3_lex h hb) r s
  · exact List.Lex.append_left _ h _

/-- Compare four-digit fields first, the remainder on a tie. -/
theorem lex_field4 (a b : Nat) (r s : List Char) (hb : b < 10000)
    (h : a < b ∨ (a = b ∧ List.Lex (· < ·) r s)) :
    List.Lex (· < ·) (pad4 a ++ r) (pad4 b ++ s) := by
  rcases h with h | ⟨rfl, h⟩
  · exact lex_append_eqlen (show (pad4 a).length = (pad4 b).length from rfl)
      (pad4_lex h hb) r s
  · exact List.Lex.append_left _ h _

/-- Strict lexicographic monotonicity of the toISOString character list on
instants up to the end of year 9999, where the fixed 24-character form is
in effect. -/
theorem isoChars_lex (t1 t2 : Nat) (h : t1 < t2) (hb : t2 < 253402300800000) :
    List.Lex (· < ·) (isoChars t1) (isoChars t2) := by
  have hY1 : yearFromTime t1 ≤ 9999 := yearFromDay_le_9999 _ (by unfold dayNumber; omega)
  have hY2 : yearFromTime t2 ≤ 9999 := yearFromDay_le_9999 _ (by unfold dayNumber; omega)
  have hmd1 := monthDate_bounds t1
  have hmd2 := monthDate_bounds t2
  have hh2 : hourFromTime t2 < 24 := by unfold hourFromTime; omega
  have hmi2 : minuteFromTime t2 < 60 := by unfold minuteFromTime; omega
  have hse2 : secondFromTime t2 < 60 := by unfold secondFromTime; omega
  have hms2 : msFromTime t2 < 1000 := by unfold msFromTime; omega
  have hf := isoFields_mono t1 t2 h
  unfold isoChars
  rw [if_pos hY1, if_pos hY2]
  unfold isoTail
  apply lex_field4 _ _ _ _ (by omega)
  rcases hf with hY | ⟨hYeq, hf⟩
  · exact Or.inl hY
  · refine Or.inr ⟨hYeq, List.Lex.cons ?_⟩
    apply lex_field2 _ _ _ _ (by omega)
    rcases hf with hM | ⟨hMeq, hf⟩
    · exact Or.inl (by omega)
    · refine Or.inr ⟨by omega, List.Lex.cons ?_⟩
      apply lex_field2 _ _ _ _ (by omega)
      rcases hf with hD | ⟨hDeq, hf⟩
      · exact Or.inl hD
      · refine Or.inr ⟨hDeq, List.Lex.cons ?_⟩
        apply lex_field2 _ _ _ _ (by omega)
        rcases hf with hh | ⟨hheq, hf⟩
        · exact Or.inl hh
        · refine Or.inr ⟨hheq, List.Lex.cons ?_⟩
          apply lex_field2 _ _ _ _ (by omega)
          rcases hf with hmi | ⟨hmieq, hf⟩
          · exact Or.inl hmi
          · refine Or.inr ⟨hmieq, List.Lex.cons ?_⟩
            apply lex_field2 _ _ _ _ (by omega)
            rcases hf with hse | ⟨hseeq, hf⟩
            · exact Or.inl hse
            · refine Or.inr ⟨hseeq, List.Lex.cons ?_⟩
              apply lex_field3 _ _ _ _ (by omega)
              exact Or.inl hf

/-- toISOString is nondecreasing under string comparison on instants up to
the end of year 9999. -/
theorem toISOString_mono (t1 t2 : Nat) (h : t1 ≤ t2) (hb : t2 < 253402300800000) :
    toISOString t1 ≤ toISOString t2 := by
  rcases Nat.lt_or_ge t1 t2 with hlt | hge
  · have hlex := isoChars_lex t1 t2 hlt hb
    have : toISOString t1 < toISOString t2 := by
      rw [String.lt_iff_toList_lt]
      exact hlex
    exact le_of_lt this
  · have : t1 = t2 := le_antisymm h hge
    rw [this]

/-- The calendar fields recompose to the instant they were computed from. -/
theorem fields_recompose (t : Nat) :
    (dayFromYear (yearFromTime t) + cumDays (inLeapYear (yearFromTime t)) (monthFromTime t) +
      (dateFromTime t - 1)) * 86400000 +
    hourFromTime t * 3600000 + minuteFromTime t * 60000 + secondFromTime t * 1000 +
      msFromTime t = t := by
  have hs := yearFromDay_spec (dayNumber t)
  have hdwy := dayWithinYear_lt t
  have hL := daysInYear_eq_L (yearFromTime t)
  have hm := monthFromDwy_spec (inLeapYear (yearFromTime t)) (dayWithinYear t) (by omega)
  have hMdef : monthFromTime t = monthFromDwy (inLeapYear (yearFromTime t)) (dayWithinYear t) :=
    rfl
  rw [← hMdef] at hm
  have hDdef : dateFromTime t =
      dayWithinYear t - cumDays (inLeapYear (yearFromTime t)) (monthFromTime t) + 1 := rfl
  have hdwyDef : dayWithinYear t = dayNumber t - dayFromYear (yearFromTime t) := rfl
  have hyd : dayFromYear (yearFromTime t) ≤ dayNumber t := hs.2.1
  have e0 : t = dayNumber t * 86400000 + t % 86400000 := by unfold dayNumber; omega
  have e1 : t % 86400000 = hourFromTime t * 3600000 + t % 86400000 % 3600000 := by
    rw [hourFromTime_eq]; omega
  have e2 : t % 86400000 % 3600000 =
      minuteFromTime t * 60000 + t % 86400000 % 3600000 % 60000 := by
    rw [minuteFromTime_eq]; omega
  have e3 : t % 86400000 % 3600000 % 60000 =
      secondFromTime t * 1000 + t % 86400000 % 3600000 % 60000 % 1000 := by
    rw [secondFromTime_eq]; omega
  have e4 : t % 86400000 % 3600000 % 60000 % 1000 = msFromTime t := (msFromTime_eq t).symm
  omega

/-- digitVal inverts digitChar on reduced digits. -/
theorem digitVal_digitChar_mod (e : Nat) : digitVal (digitChar (e % 10)) = e % 10 :=
  digitVal_digitChar _ (by omega)

/-- Reduced digits render as digit characters. -/
theorem digitChar_mod_isDigit (e : Nat) : (digitChar (e % 10)).isDigit = true :=
  digitChar_isDigit _ (by omega)

/-- The parser inverts toISOString on every instant in the fixed-format
range: the rendered string is a valid, parseable timestamp denoting exactly
the instant it was produced from. -/
theorem parseIso_toISOString (t : Nat) (hb : t < 253402300800000) :
    parseIso (toISOString t) = some t := by
  have hY9999 : yearFromTime t ≤ 9999 := yearFromDay_le_9999 _ (by unfold dayNumber; omega)
  have hY1970 : 1970 ≤ yearFromTime t := (yearFromDay_spec (dayNumber t)).1
  have hmd := monthDate_bounds t
  have hh : hourFromTime t < 24 := by unfold hourFromTime; omega
  have hmi : minuteFromTime t < 60 := by unfold minuteFromTime; omega
  have hse : secondFromTime t < 60 := by unfold secondFromTime; omega
  have hms : msFromTime t < 1000 := by unfold msFromTime; omega
  show parseIsoChars (isoChars t) = some t
  unfold isoChars
  rw [if_pos hY9999]
  unfold isoTail pad4 pad2 pad3
  simp only [List.cons_append, List.nil_append]
  simp only [parseIsoChars]
  rw [if_pos ⟨trivial, trivial, trivial, trivial, trivial, trivial, trivial,
    by simp [List.all_cons, List.all_nil, digitChar_mod_isDigit]⟩]
  simp only [digitVal_digitChar_mod]
  have hYr : yearFromTime t / 1000 % 10 * 1000 + yearFromTime t / 100 % 10 * 100 +
      yearFromTime t / 10 % 10 * 10 + yearFromTime t % 10 = yearFromTime t := by omega
  have hMor : (monthFromTime t + 1) / 10 % 10 * 10 + (monthFromTime t + 1) % 10 =
      monthFromTime t + 1 := by omega
  have hDar : dateFromTime t / 10 % 10 * 10 + dateFromTime t % 10 = dateFromTime t := by omega
  have hhr : hourFromTime t / 10 % 10 * 10 + hourFromTime t % 10 = hourFromTime t := by omega
  have hmir : minuteFromTime t / 10 % 10 * 10 + minuteFromTime t % 10 = minuteFromTime t := by
    omega
  have hser : secondFromTime t / 10 % 10 * 10 + secondFromTime t % 10 = secondFromTime t := by
    omega
  have hmsr : msFromTime t / 100 % 10 * 100 + msFromTime t / 10 % 10 * 10 + msFromTime t % 10 =
      msFromTime t := by omega
  rw [hYr, hMor, hDar, hhr, hmir, hser, hmsr]
  rw [if_pos ⟨hY1970, by omega, by omega, by omega, by omega, by omega, by omega, by omega⟩]
  rw [show monthFromTime t + 1 - 1 = monthFromTime t from by omega]
  exact congrArg some (fields_recompose t)

/-- In the fixed-format range the rendering is exactly 24 characters. -/
theorem toISOString_length (t : Nat) (hb : t < 253402300800000) :
    (toISOString t).length = 24 := by
  have hY9999 : yearFromTime t ≤ 9999 := yearFromDay_le_9999 _ (by unfold dayNumber; omega)
  show (String.mk (isoChars t)).length = 24
  unfold isoChars
  rw [if_pos hY9999]
  rfl

/-- C1: for every pair of numbers, add_numbers returns a structured payload
whose result field is exactly the sum (the model carries exact rationals, so
negative, fractional and zero inputs are covered); the handler is a total
pure function of its inputs, with no error field and no failure path. -/
theorem c1_add_numbers_returns_sum (a b : Rat) :
    getField (ServerTs.add_numbers a b).structuredContent "result" = some (.num (a + b)) ∧
    (ServerTs.add_numbers a b).structuredContent = .obj [("result", .num (a + b))] ∧
    getField (Part000.add_numbers a b).structuredContent "result" = some (.num (a + b)) ∧
    (Part000.add_numbers a b).structuredContent = .obj [("result", .num (a + b))] ∧
    hasField (ServerTs.add_numbers a b).structuredContent "error" = false := by
  refine ⟨?_, rfl, ?_, rfl, ?_⟩ <;> rfl

/-- C10: passing the empty string as relativePath to list_project_directory
is indistinguishable from omitting the argument, in both variants: the
JS or-else coalesces every falsy string, and the empty string is the only
falsy string. -/
theorem c10_empty_string_defaults (cwd : String) (fs : FileSystem) :
    ServerTs.list_project_directory cwd fs (some "") =
      ServerTs.list_project_directory cwd fs none ∧
    Part000.list_project_directory cwd fs (some "") =
      Part000.list_project_directory cwd fs none := by
  exact ⟨rfl, rfl⟩

/-- C4: for every invocation of every tool of the catalog, in both variants
and in both the success and the error branch, the text block of the envelope
is exactly the deterministic serialization of the structured payload of that
same invocation, so re-serializing the structured value reproduces the text. -/
theorem c4_text_equals_serialized_structured (a b : Rat) (now : Nat) (cwd p : String)
    (rp : Option String) (fs : FileSystem) :
    (ServerTs.add_numbers a b).text =
      stringify (ServerTs.add_numbers a b).structuredContent ∧
    (ServerTs.current_time_ist now).text =
      stringify (ServerTs.current_time_ist now).structuredContent ∧
    (ServerTs.read_project_file cwd fs p).text =
      stringify (ServerTs.read_project_file cwd fs p).structuredContent ∧
    (ServerTs.list_project_directory cwd fs rp).text =
      stringify (ServerTs.list_project_directory cwd fs rp).structuredContent ∧
    (Part000.add_numbers a b).text =
      stringify (Part000.add_numbers a b).structuredContent ∧
    (Part000.current_time_ist now).text =
      stringify (Part000.current_time_ist now).structuredContent ∧
    (Part000.read_project_file cwd fs p).text =
      stringify (Part000.read_project_file cwd fs p).structuredContent ∧
    (Part000.list_project_directory cwd fs rp).text =
      stringify (Part000.list_project_directory cwd fs rp).structuredContent := by
  refine ⟨rfl, rfl, ?_, ?_, rfl, rfl, ?_, ?_⟩
  · cases h : fs.readFile (pathResolve cwd p) <;>
      simp [ServerTs.read_project_file, h]
  · cases h : fs.readdir (pathResolve cwd (jsOr rp ".")) <;>
      simp [ServerTs.list_project_directory, h]
  · cases h : fs.readFile (pathResolve cwd p) <;>
      simp [Part000.read_project_file, h]
  · cases h : fs.readdir (pathResolve cwd (jsOr rp ".")) <;>
      simp [Part000.list_project_directory, h]

/-- C3: an I/O failure inside read_project_file or list_project_directory is
caught in the handler and reported as a normal result whose payload carries
the error message: the read payload has no content field, the list payload
has an empty entries array in the server.ts variant and no entries field in
the part_000 variant; the handlers are total functions, so no such failure
escapes as a raised error. -/
theorem c3_handler_failures_are_reported (cwd p : String) (fs : FileSystem)
    (rp : Option String) (e1 e2 : String)
    (hr : fs.readFile (pathResolve cwd p) = .error e1)
    (hd : fs.readdir (pathResolve cwd (jsOr rp ".")) = .error e2) :
    (ServerTs.read_project_file cwd fs p).structuredContent =
      .obj [("relativePath", .str p), ("absolutePath", .str (pathResolve cwd p)),
            ("error", .str e1)] ∧
    hasField (ServerTs.read_project_file cwd fs p).structuredContent "content" = false ∧
    hasField (ServerTs.read_project_file cwd fs p).structuredContent "error" = true ∧
    (Part000.read_project_file cwd fs p).structuredContent =
      .obj [("relativePath", .str p), ("absolutePath", .str (pathResolve cwd p)),
            ("error", .str e1)] ∧
    (ServerTs.list_project_directory cwd fs rp).structuredContent =
      .obj [("directory", .str (pathResolve cwd (jsOr rp "."))), ("entries", .arr []),
            ("error", .str e2)] ∧
    (Part000.list_project_directory cwd fs rp).structuredContent =
      .obj [("directory", .str (pathResolve cwd (jsOr rp "."))), ("error", .str e2)] ∧
    hasField (ServerTs.list_project_directory cwd fs rp).structuredContent "error" = true := by
  simp [ServerTs.read_project_file, Part000.read_project_file,
    ServerTs.list_project_directory, Part000.list_project_directory, hr, hd,
    hasField, getField, lookupKV]

/-- C3 witness: a filesystem failing every operation, with concrete inputs. -/
theorem c3_handler_failures_are_reported_witness :
    (⟨fun _ => .error "ENOENT", fun _ => .error "ENOTDIR"⟩ : FileSystem).readFile
      (pathResolve "/proj" "x.txt") = .error "ENOENT" ∧
    (ServerTs.read_project_file "/proj"
      ⟨fun _ => .error "ENOENT", fun _ => .error "ENOTDIR"⟩ "x.txt").structuredContent =
      .obj [("relativePath", .str "x.txt"), ("absolutePath", .str (pathResolve "/proj" "x.txt")),
            ("error", .str "ENOENT")] := by
  refine ⟨rfl, ?_⟩
  exact (c3_handler_failures_are_reported "/proj" "x.txt"
    ⟨fun _ => .error "ENOENT", fun _ => .error "ENOTDIR"⟩ none "ENOENT" "ENOTDIR" rfl rfl).1

/-- C5: dispatching any name outside the registered catalog yields the
distinct unknown-operation failure and never a handler-shaped payload
(dispatch is modelled from the spec since the lookup lives in the imported
SDK; the catalog is the four registerTool calls of the source). -/
theorem c5_unknown_operation_is_distinct (cwd : String) (fs : FileSystem) (now : Nat)
    (name : String) (input : Json) (h : name ∉ catalog) :
    dispatch cwd fs now name input = .unknownOperation name ∧
    ∀ r : ToolResult, dispatch cwd fs now name input ≠ .ok r := by
  unfold catalog at h
  simp only [List.mem_cons, List.not_mem_nil, or_false, not_or] at h
  obtain ⟨h1, h2, h3, h4⟩ := h
  unfold dispatch
  rw [if_neg h1, if_neg h2, if_neg h3, if_neg h4]
  exact ⟨rfl, fun r hc => DispatchOutcome.noConfusion hc⟩

/-- C5 witness: a concrete unregistered name. -/
theorem c5_unknown_operation_is_distinct_witness :
    "frobnicate" ∉ catalog ∧
    dispatch "/proj" ⟨fun _ => .ok "", fun _ => .ok []⟩ 0 "frobnicate" (.obj []) =
      .unknownOperation "frobnicate" := by
  refine ⟨by decide, ?_⟩
  exact (c5_unknown_operation_is_distinct "/proj" ⟨fun _ => .ok "", fun _ => .ok []⟩ 0
    "frobnicate" (.obj []) (by decide)).1

/-- C2 counterexample: for the absolute input "/a" under working directory
"/w", path.resolve discards the working directory, so the absolutePath field
is "/a" and not the working directory joined with the relative path, which
is "/w/a". -/
theorem c2_counterexample :
    pathResolve "/w" "/a" = "/a" ∧ pathJoin "/w" "/a" = "/w/a" ∧
    getField (ServerTs.read_project_file "/w"
      ⟨fun _ => .ok "hello", fun _ => .ok []⟩ "/a").structuredContent "absolutePath" =
      some (.str "/a") ∧
    ("/a" : String) ≠ pathJoin "/w" "/a" := by
  refine ⟨rfl, rfl, rfl, ?_⟩
  intro h
  rw [show pathJoin "/w" "/a" = "/w/a" from rfl] at h
  exact absurd (congrArg String.data h) (by decide)

/-- C2 as amended: read_project_file resolves relativePath with
path.resolve against the working directory — which coincides with joining
whenever relativePath is relative, while an absolute relativePath discards
the working directory — and on a successful read the content field is
exactly the text the filesystem holds at that resolved path. -/
theorem c2_read_project_file_resolution (cwd : String) (fs : FileSystem) (p c : String)
    (hok : fs.readFile (pathResolve cwd p) = .ok c) :
    (ServerTs.read_project_file cwd fs p).structuredContent =
      .obj [("relativePath", .str p), ("absolutePath", .str (pathResolve cwd p)),
            ("content", .str c)] ∧
    (Part000.read_project_file cwd fs p).structuredContent =
      .obj [("relativePath", .str p), ("absolutePath", .str (pathResolve cwd p)),
            ("content", .str c)] ∧
    (isAbsolutePath p = false → pathResolve cwd p = pathJoin cwd p) := by
  refine ⟨?_, ?_, fun habs => ?_⟩
  · simp [ServerTs.read_project_file, hok]
  · simp [Part000.read_project_file, hok]
  · simp [pathResolve, pathJoin, habs]

/-- C2 witness: a relative path read successfully under a concrete root. -/
theorem c2_read_project_file_resolution_witness :
    (⟨fun _ => .ok "hi", fun _ => .ok []⟩ : FileSystem).readFile
      (pathResolve "/w" "src/a.txt") = .ok "hi" ∧
    (ServerTs.read_project_file "/w" ⟨fun _ => .ok "hi", fun _ => .ok []⟩
      "src/a.txt").structuredContent =
      .obj [("relativePath", .str "src/a.txt"),
            ("absolutePath", .str (pathResolve "/w" "src/a.txt")),
            ("content", .str "hi")] ∧
    pathResolve "/w" "src/a.txt" = pathJoin "/w" "src/a.txt" := by
  refine ⟨rfl, ?_, ?_⟩
  · exact (c2_read_project_file_resolution "/w" ⟨fun _ => .ok "hi", fun _ => .ok []⟩
      "src/a.txt" "hi" rfl).1
  · exact (c2_read_project_file_resolution "/w" ⟨fun _ => .ok "hi", fun _ => .ok []⟩
      "src/a.txt" "hi" rfl).2.2 rfl

/-- C8 counterexample: the two variants are not observationally equivalent.
On a failing readdir the server.ts variant reports an empty entries array
next to the error field while the part_000 variant omits the entries field,
so the structured payloads (and their serializations) differ. -/
theorem c8_counterexample :
    hasField (ServerTs.list_project_directory "/w"
      ⟨fun _ => .error "boom", fun _ => .error "boom"⟩ none).structuredContent "entries" =
      true ∧
    hasField (Part000.list_project_directory "/w"
      ⟨fun _ => .error "boom", fun _ => .error "boom"⟩ none).structuredContent "entries" =
      false ∧
    (ServerTs.list_project_directory "/w"
      ⟨fun _ => .error "boom", fun _ => .error "boom"⟩ none).structuredContent ≠
    (Part000.list_project_directory "/w"
      ⟨fun _ => .error "boom", fun _ => .error "boom"⟩ none).structuredContent := by
  refine ⟨rfl, rfl, fun h => ?_⟩
  have := congrArg (fun j => hasField j "entries") h
  simp only at this
  exact absurd this (by decide)

/-- C8 as amended: the two variants agree on add_numbers, current_time_ist,
read_project_file (both branches) and on the success branch of
list_project_directory; they differ exactly in the error branch of
list_project_directory, where server.ts adds an empty entries array and
part_000 omits the field. -/
theorem c8_variants_agree_except_list_error (a b : Rat) (now : Nat) (cwd p : String)
    (rp : Option String) (fs : FileSystem) :
    ServerTs.add_numbers a b = Part000.add_numbers a b ∧
    ServerTs.current_time_ist now = Part000.current_time_ist now ∧
    ServerTs.read_project_file cwd fs p = Part000.read_project_file cwd fs p ∧
    (∀ es, fs.readdir (pathResolve cwd (jsOr rp ".")) = .ok es →
      ServerTs.list_project_directory cwd fs rp = Part000.list_project_directory cwd fs rp) ∧
    (∀ e, fs.readdir (pathResolve cwd (jsOr rp ".")) = .error e →
      (ServerTs.list_project_directory cwd fs rp).structuredContent =
        .obj [("directory", .str (pathResolve cwd (jsOr rp "."))), ("entries", .arr []),
              ("error", .str e)] ∧
      (Part000.list_project_directory cwd fs rp).structuredContent =
        .obj [("directory", .str (pathResolve cwd (jsOr rp "."))), ("error", .str e)]) := by
  refine ⟨rfl, rfl, ?_, ?_, ?_⟩
  · cases h : fs.readFile (pathResolve cwd p) <;>
      simp [ServerTs.read_project_file, Part000.read_project_file, h]
  · intro es hok
    simp [ServerTs.list_project_directory, Part000.list_project_directory, hok]
  · intro e herr
    simp [ServerTs.list_project_directory, Part000.list_project_directory, herr]

/-- C8 witness: agreement at concrete inputs with a succeeding readdir. -/
theorem c8_variants_agree_except_list_error_witness :
    ServerTs.add_numbers 1 2 = Part000.add_numbers 1 2 ∧
    ServerTs.list_project_directory "/w" ⟨fun _ => .ok "", fun _ => .ok []⟩ none =
      Part000.list_project_directory "/w" ⟨fun _ => .ok "", fun _ => .ok []⟩ none := by
  refine ⟨(c8_variants_agree_except_list_error 1 2 0 "/w" "x" none
    ⟨fun _ => .ok "", fun _ => .ok []⟩).1, ?_⟩
  exact (c8_variants_agree_except_list_error 1 2 0 "/w" "x" none
    ⟨fun _ => .ok "", fun _ => .ok []⟩).2.2.2.1 [] rfl

/-- C9 counterexample: in the part_000 variant the POST /mcp handler has no
try/catch, so a failure before the response is sent escapes the async
handler as an unhandled rejection instead of producing the 500 response with
the fixed error body. -/
theorem c9_counterexample :
    part000PostMcp (.failBefore "boom") = .unhandledRejection "boom" ∧
    part000PostMcp (.failBefore "boom") ≠
      .jsonError 500 (.obj [("error", .str "Internal MCP server error")]) := by
  exact ⟨rfl, fun h => PostOutcome.noConfusion h⟩

/-- C9 as amended: in the src/src/server.ts variant every unhandled failure
of an exchange is caught: before headers are sent it degrades to status 500
with the fixed error body, after commit it is only logged, and in no case
does the rejection escape the handler (so a single failed request cannot
terminate the process); the part_000 variant lacks this guard. -/
theorem c9_server_ts_post_mcp_catches (e : String) :
    serverTsPostMcp (.failBefore e) =
      .jsonError 500 (.obj [("error", .str "Internal MCP server error")]) ∧
    serverTsPostMcp (.failAfter e) = .loggedOnly e ∧
    (∀ x : ExchangeResult, ∀ m : String, serverTsPostMcp x ≠ .unhandledRejection m) := by
  refine ⟨rfl, rfl, fun x m => ?_⟩
  cases x <;> exact fun h => PostOutcome.noConfusion h

/-- C6: list_project_directory with no argument resolves the default "." to
the working directory itself, and the entries are exactly the immediate
children reported by readdir, each classified as directory, file or other by
the shared classification expression; in particular a directory holding one
regular file a.txt and one subdirectory b yields exactly those two entries. -/
theorem c6_list_directory_default_and_children (cwd : String) (fs : FileSystem)
    (ents : List Dirent) (hcwd : pathResolve cwd "." = cwd)
    (hok : fs.readdir cwd = .ok ents) :
    (ServerTs.list_project_directory cwd fs none).structuredContent =
      .obj [("directory", .str cwd),
            ("entries", .arr (ents.map (fun e =>
              Json.obj [("name", .str e.name), ("type", .str (direntType e))])))] ∧
    (ents = [⟨"a.txt", false, true⟩, ⟨"b", true, false⟩] →
      (ServerTs.list_project_directory cwd fs none).structuredContent =
        .obj [("directory", .str cwd),
              ("entries", .arr [.obj [("name", .str "a.txt"), ("type", .str "file")],
                                .obj [("name", .str "b"), ("type", .str "directory")]])]) := by
  have hdef : jsOr (none : Option String) "." = "." := rfl
  constructor
  · simp [ServerTs.list_project_directory, hdef, hcwd, hok]
  · intro hent
    subst hent
    simp [ServerTs.list_project_directory, hdef, hcwd, hok, direntType]

/-- C6 witness: a concrete working directory containing one regular file
a.txt and one subdirectory b. -/
theorem c6_list_directory_default_and_children_witness :
    pathResolve "/proj" "." = "/proj" ∧
    (ServerTs.list_project_directory "/proj"
      ⟨fun _ => .ok "", fun _ => .ok [⟨"a.txt", false, true⟩, ⟨"b", true, false⟩]⟩
      none).structuredContent =
      .obj [("directory", .str "/proj"),
            ("entries", .arr [.obj [("name", .str "a.txt"), ("type", .str "file")],
                              .obj [("name", .str "b"), ("type", .str "directory")]])] := by
  refine ⟨rfl, ?_⟩
  exact (c6_list_directory_default_and_children "/proj"
    ⟨fun _ => .ok "", fun _ => .ok [⟨"a.txt", false, true⟩, ⟨"b", true, false⟩]⟩
    [⟨"a.txt", false, true⟩, ⟨"b", true, false⟩] rfl rfl).2 rfl

/-- C7 counterexample: at the boundary of year 10000 toISOString switches to
the expanded 27-character form with a leading sign, which is not the fixed
24-character format and breaks lexicographic sortability: one millisecond
after 9999-12-31T23:59:59.999Z the rendered string compares strictly
smaller. -/
theorem c7_counterexample :
    (253402300799999 : Nat) < 253402300800000 ∧
    toISOString 253402300800000 < toISOString 253402300799999 ∧
    (toISOString 253402300800000).length ≠ 24 := by
  refine ⟨by decide, ?_, by decide⟩
  rw [String.lt_iff_toList_lt]
  decide

/-- C7 as amended: for invocation instants up to the end of year 9999 (all
reachable wall-clock instants), the iso field of current_time_ist is the
toISOString rendering of the captured instant, a valid parseable UTC
timestamp in the fixed sortable 24-character millisecond-precision format,
and two invocations at nondecreasing instants yield nondecreasing iso
strings under string comparison; at year 10000 the format switches to the
expanded signed form and the ordering breaks. -/
theorem c7_current_time_iso_sortable (t1 t2 : Nat) (h12 : t1 ≤ t2)
    (hb : t2 < 253402300800000) :
    getField (ServerTs.current_time_ist t1).structuredContent "iso" =
      some (.str (toISOString t1)) ∧
    getField (Part000.current_time_ist t1).structuredContent "iso" =
      some (.str (toISOString t1)) ∧
    parseIso (toISOString t1) = some t1 ∧
    (toISOString t1).length = 24 ∧
    toISOString t1 ≤ toISOString t2 := by
  exact ⟨rfl, rfl, parseIso_toISOString t1 (by omega), toISOString_length t1 (by omega),
    toISOString_mono t1 t2 h12 hb⟩

/-- C7 witness: the epoch instant against an instant in 2025. -/
theorem c7_current_time_iso_sortable_witness :
    (0 : Nat) ≤ 1760227200123 ∧ (1760227200123 : Nat) < 253402300800000 ∧
    parseIso (toISOString 0) = some 0 ∧ toISOString 0 ≤ toISOString 1760227200123 := by
  refine ⟨by decide, by decide, ?_, ?_⟩
  · exact (c7_current_time_iso_sortable 0 1760227200123 (by decide) (by decide)).2.2.1
  · exact (c7_current_time_iso_sortable 0 1760227200123 (by decide) (by decide)).2.2.2.2

end McpDemo
